import Mathlib

/-!
Shallow embedding of `src/arduino/pan_tilt_controller/pan_tilt_controller.ino`,
a serial-driven pan/tilt servo controller.

Modelling choices:
* Arduino `float` arithmetic is modelled over `ℚ` (exact arithmetic, the
  spec's real-number reading of the algorithm).
* Arduino `String` values are modelled as `List Char`.
* The Arduino-core library functions the sketch calls are embedded from the
  AVR core sources: `String::indexOf` (first occurrence or -1, modelled with
  `Option Nat`), `String::substring(left, right)` (which swaps the bounds when
  `left > right` and clips `right` to the length), `String::toFloat`
  (`atof`, i.e. avr-libc `strtod`), `Print::print(double, 1)`
  (`Print::printFloat`), and the macros `constrain`, `abs`, `max`, `round`.
* `String::toFloat` is embedded twice, at two levels of fidelity.  `atofQ` is
  the finite-number fragment of `strtod` (optional whitespace, optional sign,
  digits, optional fraction, optional exponent; no conversion yields 0); it is
  used by the theorems whose inputs cannot reach a special value (the error
  path of the serial loop, and the `T`-before-`P` claim whose extracted text
  always starts with the letter `T`, defeating the digit, `inf` and `nan`
  forms alike).  `atofF` is the full value semantics over `FloatVal`
  (a rational, NaN, or a signed infinity): avr-libc `strtod` also recognizes
  case-insensitive `nan` and `inf`/`infinity`, and `constrain` — two plain C
  comparisons — passes NaN through unclamped.  The whole-program
  target-invariant and acknowledgment theorems use the full decoder
  (`processCommandF`), whose formatter `fmt1F` also models `printFloat`'s
  `nan`/`inf`/`ovf` branches.  Finite parsed values stay exact rationals in
  both: binary rounding and overflow-to-infinity are not modelled (a finite
  parse at or beyond a limit clamps to the same limit either way), and hex
  floats are absent from avr-libc `strtod`.
* The `millis()` gate at the top of `updateServos` only decides whether the
  body of the function runs on a given pass of `loop()`; a "tick" here is one
  execution of that body.
* Each `Serial.print...Serial.println` group that emits one output line is
  modelled as one `String` in an output list.
-/

namespace PanTilt

/-- Servo limit constant `PAN_MIN` from the sketch. -/
def PAN_MIN : ℚ := 0

/-- Servo limit constant `PAN_MAX` from the sketch. -/
def PAN_MAX : ℚ := 180

/-- Servo limit constant `TILT_MIN` from the sketch. -/
def TILT_MIN : ℚ := 0

/-- Servo limit constant `TILT_MAX` from the sketch. -/
def TILT_MAX : ℚ := 180

/-- Smoothing constant `SMOOTH_FACTOR = 0.3` from the sketch. -/
def SMOOTH_FACTOR : ℚ := 3 / 10

/-- Minimum step constant `MIN_STEP = 0.1` from the sketch. -/
def MIN_STEP : ℚ := 1 / 10

/-- The four global angle variables of the sketch. -/
structure ControllerState where
  panAngle : ℚ
  tiltAngle : ℚ
  targetPanAngle : ℚ
  targetTiltAngle : ℚ
deriving DecidableEq, Repr

/-- Initial values of the angle globals (all `90.0`). -/
def initState : ControllerState := ⟨90, 90, 90, 90⟩

/-- Arduino macro `constrain(amt, low, high)`. -/
def constrain (x lo hi : ℚ) : ℚ :=
  if x < lo then lo else if hi < x then hi else x

/-- Arduino macro `round(x)`: add or subtract one half, then truncate toward
zero (floor for nonnegative, ceiling for negative arguments). -/
def roundQ (q : ℚ) : ℤ :=
  if 0 ≤ q then ⌊q + 1 / 2⌋ else ⌈q - 1 / 2⌉

/-- One axis of the body of `updateServos`: the deadband guard
`abs(angle - target) > MIN_STEP`, the proportional step
`max(MIN_STEP, abs(diff * SMOOTH_FACTOR))`, the snap / step-up / step-down
choice, and the `servo.write(round(angle))` call (returned as `some` written
value, `none` when the guard blocks the axis). -/
def updateAxis (current target : ℚ) : ℚ × Option ℤ :=
  if MIN_STEP < |current - target| then
    let diff := target - current
    let step := max MIN_STEP |diff * SMOOTH_FACTOR|
    let next := if |diff| ≤ step then target
      else if 0 < diff then current + step
      else current - step
    (next, some (roundQ next))
  else
    (current, none)

/-- Result of one tick of `updateServos`: the new angle state and the value
written to each servo, if any. -/
structure TickOutput where
  state : ControllerState
  panWrite : Option ℤ
  tiltWrite : Option ℤ
deriving DecidableEq, Repr

/-- Body of `updateServos` (one Smoother tick): both axes updated
independently, targets untouched. -/
def updateServos (s : ControllerState) : TickOutput :=
  let p := updateAxis s.panAngle s.targetPanAngle
  let t := updateAxis s.tiltAngle s.targetTiltAngle
  ⟨⟨p.1, t.1, s.targetPanAngle, s.targetTiltAngle⟩, p.2, t.2⟩

/-- State part of one Smoother tick. -/
def tick (s : ControllerState) : ControllerState := (updateServos s).state

/-- Iterated Smoother ticks. -/
def tickN : Nat → ControllerState → ControllerState
  | 0, s => s
  | n + 1, s => tickN n (tick s)

/-- Arduino `String::indexOf(ch)`: index of the first occurrence, `none`
standing for the sketch's `-1`. -/
def indexOfC : List Char → Char → Option Nat
  | [], _ => none
  | x :: xs, c => if x = c then some 0 else (indexOfC xs c).map (· + 1)

/-- Arduino `String::substring(left, right)`: the AVR core swaps the bounds
when `left > right`, returns the empty string when the (swapped) left bound is
at or past the end, clips the right bound to the length, and returns the
characters in `[left, right)`. -/
def substringArd (s : List Char) (left right : Nat) : List Char :=
  let lo := min left right
  let hi := max left right
  if s.length ≤ lo then [] else (s.take (min hi s.length)).drop lo

/-- Character class `isspace` used by `strtod`. -/
def isSpaceC (c : Char) : Bool :=
  c = ' ' || c = '\t' || c = '\n' || c = '\x0b' || c = '\x0c' || c = '\r'

/-- Decimal value of a digit string. -/
def digitsToNat (ds : List Char) : Nat :=
  ds.foldl (fun a c => 10 * a + (c.toNat - 48)) 0

/-- Optional sign at the head of the mantissa, as parsed by `strtod`. -/
def signSplitQ (s : List Char) : ℚ × List Char :=
  match s with
  | [] => (1, [])
  | c :: r => if c = '-' then (-1, r) else if c = '+' then (1, r) else (1, c :: r)

/-- Optional sign at the head of the exponent, as parsed by `strtod`. -/
def signSplitZ (s : List Char) : ℤ × List Char :=
  match s with
  | [] => (1, [])
  | c :: r => if c = '-' then (-1, r) else if c = '+' then (1, r) else (1, c :: r)

/-- Optional fractional part (a dot followed by digits), as parsed by
`strtod`; returns the fraction digits and the rest of the input. -/
def fracSplit (s : List Char) : List Char × List Char :=
  match s with
  | [] => ([], [])
  | c :: r =>
    if c = '.' then (r.takeWhile Char.isDigit, r.dropWhile Char.isDigit)
    else ([], c :: r)

/-- Optional exponent (`e`/`E`, optional sign, digits), as parsed by `strtod`;
an `e` not followed by digits is ignored (the parse backtracks). -/
def expPart (s : List Char) : ℤ :=
  match s with
  | [] => 0
  | c :: r =>
    if c = 'e' ∨ c = 'E' then
      let p := signSplitZ r
      let eds := p.2.takeWhile Char.isDigit
      if eds.length = 0 then 0 else p.1 * (digitsToNat eds : ℤ)
    else 0

/-- Arduino `String::toFloat` (`atof` on the buffer): skip whitespace, parse
an optional sign, integer digits, an optional fraction and an optional
exponent; when no digit was consumed the result is 0. -/
def atofQ (s : List Char) : ℚ :=
  let s1 := s.dropWhile isSpaceC
  let p := signSplitQ s1
  let intDs := p.2.takeWhile Char.isDigit
  let s3 := p.2.dropWhile Char.isDigit
  let q := fracSplit s3
  if intDs.length + q.1.length = 0 then 0
  else
    let mant : ℚ := (digitsToNat intDs : ℚ) + (digitsToNat q.1 : ℚ) / (10 : ℚ) ^ q.1.length
    p.1 * mant * (10 : ℚ) ^ expPart q.2

/-- Decimal digit character. -/
def digitChar (n : Nat) : Char := Char.ofNat (48 + n)

/-- Decimal digits of a natural number; the first argument is structural fuel
(any value above the digit count, supplied as `n + 1` below). -/
def natToCharsAux : Nat → Nat → List Char
  | 0, _ => []
  | fuel + 1, n =>
    if n < 10 then [digitChar n]
    else natToCharsAux fuel (n / 10) ++ [digitChar (n % 10)]

/-- Decimal rendering of a natural number, as `Print::print(unsigned long)`
emits it. -/
def natToString (n : Nat) : String := String.mk (natToCharsAux (n + 1) n)

/-- Nonnegative branch of `Print::printFloat(number, 1)`: add the rounding
term `0.05`, print the integer part, a dot, and one fractional digit. -/
def fmt1core (q : ℚ) : String :=
  let n := q + 1 / 20
  let ip : ℤ := ⌊n⌋
  let d : ℤ := ⌊(n - (ip : ℚ)) * 10⌋
  natToString ip.toNat ++ "." ++ natToString d.toNat

/-- Arduino `Print::print(double, 1)` / `Print::printFloat` with one digit:
a leading minus sign for negative numbers, then the nonnegative branch. -/
def fmt1 (q : ℚ) : String :=
  if q < 0 then "-" ++ fmt1core (-q) else fmt1core q

/-- The sketch's `processCommand`: locate `P` and `T`, extract the two value
substrings, parse them with `toFloat`, `constrain` both values, publish them
as the new targets and acknowledge; when either marker is missing, emit one
error line and leave the state untouched. -/
def processCommand (s : ControllerState) (command : List Char) :
    ControllerState × List String :=
  match indexOfC command 'P', indexOfC command 'T' with
  | some pIndex, some tIndex =>
    let panStr := substringArd command (pIndex + 1) tIndex
    let tiltStr := substringArd command (tIndex + 1) command.length
    let pan := constrain (atofQ panStr) PAN_MIN PAN_MAX
    let tilt := constrain (atofQ tiltStr) TILT_MIN TILT_MAX
    ({ s with targetPanAngle := pan, targetTiltAngle := tilt },
      ["OK: P=" ++ fmt1 pan ++ ", T=" ++ fmt1 tilt])
  | _, _ => (s, ["Error: Invalid command format - " ++ String.mk command])

/-- Controller state together with the sketch's `inputBuffer` global. -/
structure SerialState where
  ctrl : ControllerState
  inputBuffer : List Char
deriving DecidableEq, Repr

/-- One iteration of the `readSerialCommands` receive loop on one incoming
character: a terminator with a non-empty buffer processes the buffered line
and clears the buffer, a terminator with an empty buffer does nothing, and
any other character is appended to the buffer. -/
def serialStep (ss : SerialState) (c : Char) : SerialState × List String :=
  if c = '\n' ∨ c = '\r' then
    if 0 < ss.inputBuffer.length then
      let r := processCommand ss.ctrl ss.inputBuffer
      (⟨r.1, []⟩, r.2)
    else (ss, [])
  else (⟨ss.ctrl, ss.inputBuffer ++ [c]⟩, [])

/-- `readSerialCommands` over a finite list of available characters,
collecting all emitted output lines. -/
def readSerial : SerialState → List Char → SerialState × List String
  | ss, [] => (ss, [])
  | ss, c :: cs =>
    let r := serialStep ss c
    let r2 := readSerial r.1 cs
    (r2.1, r.2 ++ r2.2)

/-- One observable event of the control loop: a decoded command line handed to
`processCommand`, or one Smoother tick. -/
inductive Event where
  | cmd : List Char → Event
  | tick : Event

/-- Effect of one event on the angle state. -/
def stepEvent (s : ControllerState) : Event → ControllerState
  | Event.cmd l => (processCommand s l).1
  | Event.tick => tick s

/-- Angle state after a sequence of events, starting from the initial state. -/
def runEvents (evs : List Event) : ControllerState :=
  evs.foldl stepEvent initState

/-- Range invariant of the spec's data model: every angle variable lies in
`[0, 180]`. -/
def InRange (s : ControllerState) : Prop :=
  0 ≤ s.panAngle ∧ s.panAngle ≤ 180 ∧
  0 ≤ s.tiltAngle ∧ s.tiltAngle ≤ 180 ∧
  0 ≤ s.targetPanAngle ∧ s.targetPanAngle ≤ 180 ∧
  0 ≤ s.targetTiltAngle ∧ s.targetTiltAngle ≤ 180

/-- Value domain of a C `float` on the decoder path: a finite value (kept
exact over ℚ) or one of the special values `strtod` can produce. -/
inductive FloatVal where
  | num : ℚ → FloatVal
  | nan : FloatVal
  | inf : FloatVal
  | ninf : FloatVal
deriving DecidableEq, Repr

/-- C `<` on float values: any comparison with NaN is false, the infinities
order as usual. -/
def fltLtB : FloatVal → FloatVal → Bool
  | FloatVal.nan, _ => false
  | _, FloatVal.nan => false
  | FloatVal.num a, FloatVal.num b => decide (a < b)
  | FloatVal.num _, FloatVal.inf => true
  | FloatVal.num _, FloatVal.ninf => false
  | FloatVal.inf, _ => false
  | FloatVal.ninf, FloatVal.num _ => true
  | FloatVal.ninf, FloatVal.inf => true
  | FloatVal.ninf, FloatVal.ninf => false

/-- Arduino `constrain` macro on float values, keeping C comparison
semantics: NaN fails both comparisons and passes through unclamped, while
the infinities clamp to the corresponding limit. -/
def constrainF (x : FloatVal) (lo hi : ℚ) : FloatVal :=
  if fltLtB x (FloatVal.num lo) then FloatVal.num lo
  else if fltLtB (FloatVal.num hi) x then FloatVal.num hi
  else x

/-- Case-insensitive `nan` prefix test of avr-libc `strtod`. -/
def isNanPrefix : List Char → Bool
  | c1 :: c2 :: c3 :: _ =>
    (c1 = 'n' || c1 = 'N') && (c2 = 'a' || c2 = 'A') && (c3 = 'n' || c3 = 'N')
  | _ => false

/-- Case-insensitive `inf` prefix test of avr-libc `strtod`. -/
def isInfPrefix : List Char → Bool
  | c1 :: c2 :: c3 :: _ =>
    (c1 = 'i' || c1 = 'I') && (c2 = 'n' || c2 = 'N') && (c3 = 'f' || c3 = 'F')
  | _ => false

/-- Full `String::toFloat` (`atof`, avr-libc `strtod`) value semantics: after
whitespace and an optional sign, a case-insensitive `nan` yields NaN, a
case-insensitive `inf` yields a signed infinity, and otherwise the numeric
prefix parses as in `atofQ` (0 when no conversion happens).  The optional
`(n-char-seq)` after `nan` and `inity` after `inf` only consume further
characters (they matter to `endptr`, which `toFloat` discards) and never
change the value, so they are not tracked. -/
def atofF (s : List Char) : FloatVal :=
  let s1 := s.dropWhile isSpaceC
  let p := signSplitQ s1
  if isNanPrefix p.2 then FloatVal.nan
  else if isInfPrefix p.2 then
    (if p.1 < 0 then FloatVal.ninf else FloatVal.inf)
  else
    let intDs := p.2.takeWhile Char.isDigit
    let s3 := p.2.dropWhile Char.isDigit
    let q := fracSplit s3
    if intDs.length + q.1.length = 0 then FloatVal.num 0
    else
      let mant : ℚ := (digitsToNat intDs : ℚ) + (digitsToNat q.1 : ℚ) / (10 : ℚ) ^ q.1.length
      FloatVal.num (p.1 * mant * (10 : ℚ) ^ expPart q.2)

/-- `Print::printFloat(number, 1)` with its special branches: `nan` for NaN,
`inf` for either infinity (the sign is dropped before it is printed), `ovf`
outside plus or minus 4294967040, and the numeric path of `fmt1` otherwise. -/
def fmt1F : FloatVal → String
  | FloatVal.nan => "nan"
  | FloatVal.inf => "inf"
  | FloatVal.ninf => "inf"
  | FloatVal.num q =>
    if 4294967040 < q then "ovf"
    else if q < -4294967040 then "ovf"
    else fmt1 q

/-- The four angle globals over the full float value domain. -/
structure FullControllerState where
  panAngleF : FloatVal
  tiltAngleF : FloatVal
  targetPanAngleF : FloatVal
  targetTiltAngleF : FloatVal
deriving DecidableEq, Repr

/-- Initial values of the angle globals (all `90.0`). -/
def initFullState : FullControllerState :=
  ⟨FloatVal.num 90, FloatVal.num 90, FloatVal.num 90, FloatVal.num 90⟩

/-- The sketch's `processCommand` over the full float value domain: identical
structure to `processCommand`, with `toFloat`, `constrain` and the
one-decimal printing carried out on `FloatVal`. -/
def processCommandF (s : FullControllerState) (command : List Char) :
    FullControllerState × List String :=
  match indexOfC command 'P', indexOfC command 'T' with
  | some pIndex, some tIndex =>
    let panStr := substringArd command (pIndex + 1) tIndex
    let tiltStr := substringArd command (tIndex + 1) command.length
    let pan := constrainF (atofF panStr) PAN_MIN PAN_MAX
    let tilt := constrainF (atofF tiltStr) TILT_MIN TILT_MAX
    ({ s with targetPanAngleF := pan, targetTiltAngleF := tilt },
      ["OK: P=" ++ fmt1F pan ++ ", T=" ++ fmt1F tilt])
  | _, _ => (s, ["Error: Invalid command format - " ++ String.mk command])

/-- A float value that is a number within the `[0, 180]` limits. -/
def inRangeF (v : FloatVal) : Prop :=
  ∃ q : ℚ, v = FloatVal.num q ∧ 0 ≤ q ∧ q ≤ 180

/-! Basic facts about one axis of the Smoother. -/

lemma min_step_pos : (0 : ℚ) < MIN_STEP := by norm_num [MIN_STEP]

lemma updateAxis_deadband (c t : ℚ) (h : |c - t| ≤ MIN_STEP) :
    updateAxis c t = (c, none) := by
  simp [updateAxis, not_lt.mpr h]

lemma ne_of_deadband_exceeded (c t : ℚ) (h : MIN_STEP < |c - t|) : c ≠ t := by
  intro he
  rw [he, sub_self, abs_zero] at h
  exact absurd h (by norm_num [MIN_STEP])

lemma sub_neg_of_not_pos (c t : ℚ) (h : c ≠ t) (h2 : ¬ 0 < t - c) : t - c < 0 :=
  lt_of_le_of_ne (not_lt.mp h2) (sub_ne_zero.mpr (Ne.symm h))

lemma step_lt (c t : ℚ) (h : MIN_STEP < |c - t|) :
    max MIN_STEP |(t - c) * SMOOTH_FACTOR| < |t - c| := by
  have h' : MIN_STEP < |t - c| := by rwa [abs_sub_comm] at h
  apply max_lt h'
  have hs : |(t - c) * SMOOTH_FACTOR| = |t - c| * (3 / 10) := by
    rw [abs_mul, show SMOOTH_FACTOR = (3 : ℚ) / 10 from rfl,
      abs_of_pos (show (0 : ℚ) < 3 / 10 by norm_num)]
  have h0 : (0 : ℚ) < |t - c| := lt_trans min_step_pos h'
  rw [hs]
  linarith

lemma updateAxis_up (c t : ℚ) (h : MIN_STEP < |c - t|) (h2 : 0 < t - c) :
    (updateAxis c t).1 = c + max MIN_STEP |(t - c) * SMOOTH_FACTOR| := by
  have hne : ¬ |t - c| ≤ max MIN_STEP |(t - c) * SMOOTH_FACTOR| :=
    not_le.mpr (step_lt c t h)
  simp [updateAxis, h, hne, h2]

lemma updateAxis_down (c t : ℚ) (h : MIN_STEP < |c - t|) (h2 : ¬ 0 < t - c) :
    (updateAxis c t).1 = c - max MIN_STEP |(t - c) * SMOOTH_FACTOR| := by
  have hne : ¬ |t - c| ≤ max MIN_STEP |(t - c) * SMOOTH_FACTOR| :=
    not_le.mpr (step_lt c t h)
  simp [updateAxis, h, hne, h2]

lemma updateAxis_dist (c t : ℚ) : |(updateAxis c t).1 - t| ≤ |c - t| := by
  by_cases h : MIN_STEP < |c - t|
  · have hstep := step_lt c t h
    have hpos : (0 : ℚ) < max MIN_STEP |(t - c) * SMOOTH_FACTOR| :=
      lt_of_lt_of_le min_step_pos (le_max_left _ _)
    by_cases h2 : 0 < t - c
    · rw [updateAxis_up c t h h2]
      have habs : |t - c| = t - c := abs_of_pos h2
      rw [habs] at hstep
      rw [abs_sub_comm c t, habs,
        abs_of_neg (show c + max MIN_STEP |(t - c) * SMOOTH_FACTOR| - t < 0 by linarith)]
      linarith
    · have h3 : t - c < 0 := sub_neg_of_not_pos c t (ne_of_deadband_exceeded c t h) h2
      rw [updateAxis_down c t h h2]
      have habs : |t - c| = -(t - c) := abs_of_neg h3
      rw [habs] at hstep
      rw [abs_sub_comm c t, habs,
        abs_of_pos (show 0 < c - max MIN_STEP |(t - c) * SMOOTH_FACTOR| - t by linarith)]
      linarith
  · simp [updateAxis_deadband c t (not_lt.mp h)]

lemma updateAxis_mem (c t : ℚ) :
    min c t ≤ (updateAxis c t).1 ∧ (updateAxis c t).1 ≤ max c t := by
  by_cases h : MIN_STEP < |c - t|
  · have hstep := step_lt c t h
    have hpos : (0 : ℚ) < max MIN_STEP |(t - c) * SMOOTH_FACTOR| :=
      lt_of_lt_of_le min_step_pos (le_max_left _ _)
    by_cases h2 : 0 < t - c
    · rw [updateAxis_up c t h h2]
      have habs : |t - c| = t - c := abs_of_pos h2
      rw [habs] at hstep
      constructor
      · exact le_trans (min_le_left c t) (by linarith)
      · exact le_trans (by linarith : c + max MIN_STEP |(t - c) * SMOOTH_FACTOR| ≤ t)
          (le_max_right c t)
    · have h3 : t - c < 0 := sub_neg_of_not_pos c t (ne_of_deadband_exceeded c t h) h2
      rw [updateAxis_down c t h h2]
      have habs : |t - c| = -(t - c) := abs_of_neg h3
      rw [habs] at hstep
      constructor
      · exact le_trans (min_le_right c t) (by linarith)
      · exact le_trans (by linarith : c - max MIN_STEP |(t - c) * SMOOTH_FACTOR| ≤ c)
          (le_max_left c t)
  · constructor
    · rw [show (updateAxis c t).1 = c by
        rw [updateAxis_deadband c t (not_lt.mp h)]]
      exact min_le_left c t
    · rw [show (updateAxis c t).1 = c by
        rw [updateAxis_deadband c t (not_lt.mp h)]]
      exact le_max_left c t

lemma updateAxis_progress (c t : ℚ) (h : c ≠ t) : (updateAxis c t).1 ≠ t := by
  by_cases hd : MIN_STEP < |c - t|
  · have hstep := step_lt c t hd
    have hpos : (0 : ℚ) < max MIN_STEP |(t - c) * SMOOTH_FACTOR| :=
      lt_of_lt_of_le min_step_pos (le_max_left _ _)
    by_cases h2 : 0 < t - c
    · rw [updateAxis_up c t hd h2]
      have habs : |t - c| = t - c := abs_of_pos h2
      rw [habs] at hstep
      exact ne_of_lt (by linarith)
    · have h3 : t - c < 0 := sub_neg_of_not_pos c t h h2
      rw [updateAxis_down c t hd h2]
      have habs : |t - c| = -(t - c) := abs_of_neg h3
      rw [habs] at hstep
      exact ne_of_gt (by linarith)
  · rw [show (updateAxis c t).1 = c by
      rw [updateAxis_deadband c t (not_lt.mp hd)]]
    exact h

lemma tick_panAngle (s : ControllerState) :
    (tick s).panAngle = (updateAxis s.panAngle s.targetPanAngle).1 := rfl

lemma tick_tiltAngle (s : ControllerState) :
    (tick s).tiltAngle = (updateAxis s.tiltAngle s.targetTiltAngle).1 := rfl

lemma tick_targetPan (s : ControllerState) :
    (tick s).targetPanAngle = s.targetPanAngle := rfl

lemma tick_targetTilt (s : ControllerState) :
    (tick s).targetTiltAngle = s.targetTiltAngle := rfl

lemma updateServos_state_pan (s : ControllerState) :
    (updateServos s).state.panAngle = (updateAxis s.panAngle s.targetPanAngle).1 := rfl

lemma updateServos_state_tilt (s : ControllerState) :
    (updateServos s).state.tiltAngle = (updateAxis s.tiltAngle s.targetTiltAngle).1 := rfl

lemma updateServos_panWrite (s : ControllerState) :
    (updateServos s).panWrite = (updateAxis s.panAngle s.targetPanAngle).2 := rfl

lemma updateServos_tiltWrite (s : ControllerState) :
    (updateServos s).tiltWrite = (updateAxis s.tiltAngle s.targetTiltAngle).2 := rfl

lemma tickN_pan_ne (n : Nat) :
    ∀ s : ControllerState, s.panAngle ≠ s.targetPanAngle →
      (tickN n s).panAngle ≠ s.targetPanAngle := by
  induction n with
  | zero => exact fun s h => h
  | succ n ih =>
    intro s h
    have hstep : (tick s).panAngle ≠ (tick s).targetPanAngle := by
      rw [tick_panAngle, tick_targetPan]
      exact updateAxis_progress _ _ h
    have h2 := ih (tick s) hstep
    rw [tick_targetPan] at h2
    exact h2

lemma tickN_tilt_ne (n : Nat) :
    ∀ s : ControllerState, s.tiltAngle ≠ s.targetTiltAngle →
      (tickN n s).tiltAngle ≠ s.targetTiltAngle := by
  induction n with
  | zero => exact fun s h => h
  | succ n ih =>
    intro s h
    have hstep : (tick s).tiltAngle ≠ (tick s).targetTiltAngle := by
      rw [tick_tiltAngle, tick_targetTilt]
      exact updateAxis_progress _ _ h
    have h2 := ih (tick s) hstep
    rw [tick_targetTilt] at h2
    exact h2

/-- C4: on every single Smoother tick, for each axis, the current angle never
moves past the target: the post-tick distance to the target is nonnegative and
at most the pre-tick distance. -/
theorem tick_no_overshoot (s : ControllerState) :
    (0 ≤ |(tick s).panAngle - s.targetPanAngle| ∧
      |(tick s).panAngle - s.targetPanAngle| ≤ |s.panAngle - s.targetPanAngle|) ∧
    (0 ≤ |(tick s).tiltAngle - s.targetTiltAngle| ∧
      |(tick s).tiltAngle - s.targetTiltAngle| ≤ |s.tiltAngle - s.targetTiltAngle|) := by
  refine ⟨⟨abs_nonneg _, ?_⟩, ⟨abs_nonneg _, ?_⟩⟩
  · rw [tick_panAngle]
    exact updateAxis_dist s.panAngle s.targetPanAngle
  · rw [tick_tiltAngle]
    exact updateAxis_dist s.tiltAngle s.targetTiltAngle

/-- C6: on a tick where an axis is strictly within the deadband (a nonzero
distance at or below `MIN_STEP`), the tick leaves that axis unchanged and
performs no servo write for it; consequently an axis that starts away from
its target never becomes exactly equal to it, however many ticks run. -/
theorem deadband_freezes (s : ControllerState) :
    (s.panAngle ≠ s.targetPanAngle → |s.panAngle - s.targetPanAngle| ≤ MIN_STEP →
      (updateServos s).state.panAngle = s.panAngle ∧ (updateServos s).panWrite = none) ∧
    (s.tiltAngle ≠ s.targetTiltAngle → |s.tiltAngle - s.targetTiltAngle| ≤ MIN_STEP →
      (updateServos s).state.tiltAngle = s.tiltAngle ∧ (updateServos s).tiltWrite = none) ∧
    (s.panAngle ≠ s.targetPanAngle →
      ∀ n, (tickN n s).panAngle ≠ s.targetPanAngle) ∧
    (s.tiltAngle ≠ s.targetTiltAngle →
      ∀ n, (tickN n s).tiltAngle ≠ s.targetTiltAngle) := by
  refine ⟨fun _ h2 => ?_, fun _ h2 => ?_, fun h n => tickN_pan_ne n s h,
    fun h n => tickN_tilt_ne n s h⟩
  · rw [updateServos_state_pan, updateServos_panWrite,
      updateAxis_deadband s.panAngle s.targetPanAngle h2]
    exact ⟨rfl, rfl⟩
  · rw [updateServos_state_tilt, updateServos_tiltWrite,
      updateAxis_deadband s.tiltAngle s.targetTiltAngle h2]
    exact ⟨rfl, rfl⟩

/-- Witness for C6 at a concrete state: pan at 90 with target 90.075 (distance
0.075 ≤ MIN_STEP), which a tick leaves unchanged, with no pan servo write and
no convergence in any number of ticks. -/
theorem deadband_freezes_witness :
    ((90 : ℚ) ≠ 90 + 3 / 40 ∧ |(90 : ℚ) - (90 + 3 / 40)| ≤ MIN_STEP) ∧
    ((updateServos ⟨90, 90, 90 + 3 / 40, 90⟩).state.panAngle = 90 ∧
      (updateServos ⟨90, 90, 90 + 3 / 40, 90⟩).panWrite = none) ∧
    (tickN 7 ⟨90, 90, 90 + 3 / 40, 90⟩).panAngle ≠ 90 + 3 / 40 := by
  have h1 : (90 : ℚ) ≠ 90 + 3 / 40 := by norm_num
  have h2 : |(90 : ℚ) - (90 + 3 / 40)| ≤ MIN_STEP := by
    rw [show (90 : ℚ) - (90 + 3 / 40) = -(3 / 40) by norm_num, abs_neg,
      abs_of_nonneg (by norm_num : (0 : ℚ) ≤ 3 / 40)]
    norm_num [MIN_STEP]
  exact ⟨⟨h1, h2⟩, (deadband_freezes ⟨90, 90, 90 + 3 / 40, 90⟩).1 h1 h2,
    (deadband_freezes ⟨90, 90, 90 + 3 / 40, 90⟩).2.2.1 h1 7⟩

/-- C1 (refuted, code bug): at pan 90 with target 90.05, the claimed bound
puts exact convergence within one tick, yet a tick is a no-op (the deadband
guard skips the axis), the distance to target never decreases, and no number
of ticks ever reaches exact equality. -/
theorem near_target_never_converges :
    (⟨90, 90, 90 + 1 / 20, 90⟩ : ControllerState).panAngle ≠
      (⟨90, 90, 90 + 1 / 20, 90⟩ : ControllerState).targetPanAngle ∧
    tick ⟨90, 90, 90 + 1 / 20, 90⟩ = ⟨90, 90, 90 + 1 / 20, 90⟩ ∧
    ∀ n, (tickN n ⟨90, 90, 90 + 1 / 20, 90⟩).panAngle ≠ 90 + 1 / 20 := by
  have hne : (90 : ℚ) ≠ 90 + 1 / 20 := by norm_num
  have hp : updateAxis (90 : ℚ) (90 + 1 / 20) = (90, none) := by
    apply updateAxis_deadband
    rw [show (90 : ℚ) - (90 + 1 / 20) = -(1 / 20) by norm_num, abs_neg,
      abs_of_nonneg (by norm_num : (0 : ℚ) ≤ 1 / 20)]
    norm_num [MIN_STEP]
  have ht : updateAxis (90 : ℚ) (90 : ℚ) = (90, none) := by
    apply updateAxis_deadband
    rw [sub_self, abs_zero]
    norm_num [MIN_STEP]
  refine ⟨hne, ?_, fun n => tickN_pan_ne n ⟨90, 90, 90 + 1 / 20, 90⟩ hne⟩
  show (⟨(updateAxis (90 : ℚ) (90 + 1 / 20)).1, (updateAxis (90 : ℚ) 90).1,
    90 + 1 / 20, 90⟩ : ControllerState) = ⟨90, 90, 90 + 1 / 20, 90⟩
  rw [hp, ht]

/-- C2 (refuted, code bug): at pan 90 with target 90.1 the distance is exactly
`MIN_STEP`, so the claim requires the tick to snap the pan angle to the
target; the code instead leaves it at 90 because the deadband guard
`abs(delta) > MIN_STEP` already fails, making the snap branch unreachable. -/
theorem min_step_snap_missing :
    |(⟨90, 90, 90 + 1 / 10, 90⟩ : ControllerState).panAngle -
      (⟨90, 90, 90 + 1 / 10, 90⟩ : ControllerState).targetPanAngle| ≤ MIN_STEP ∧
    (tick ⟨90, 90, 90 + 1 / 10, 90⟩).panAngle = 90 ∧
    (tick ⟨90, 90, 90 + 1 / 10, 90⟩).panAngle ≠
      (⟨90, 90, 90 + 1 / 10, 90⟩ : ControllerState).targetPanAngle := by
  have habs : |(90 : ℚ) - (90 + 1 / 10)| ≤ MIN_STEP := by
    rw [show (90 : ℚ) - (90 + 1 / 10) = -(1 / 10) by norm_num, abs_neg,
      abs_of_nonneg (by norm_num : (0 : ℚ) ≤ 1 / 10)]
    norm_num [MIN_STEP]
  have hp : (tick ⟨90, 90, 90 + 1 / 10, 90⟩).panAngle = 90 := by
    rw [tick_panAngle, updateAxis_deadband _ _ habs]
  exact ⟨habs, hp, by rw [hp]; norm_num⟩

/-! Range invariant (C3). -/

lemma constrain_mem (x lo hi : ℚ) (h : lo ≤ hi) :
    lo ≤ constrain x lo hi ∧ constrain x lo hi ≤ hi := by
  unfold constrain
  split_ifs with h1 h2 <;> constructor <;> linarith

lemma processCommand_InRange (s : ControllerState) (hs : InRange s) (cmd : List Char) :
    InRange (processCommand s cmd).1 := by
  obtain ⟨h1, h2, h3, h4, h5, h6, h7, h8⟩ := hs
  cases hP : indexOfC cmd 'P' with
  | none =>
    have hres : (processCommand s cmd).1 = s := by simp [processCommand, hP]
    rw [hres]
    exact ⟨h1, h2, h3, h4, h5, h6, h7, h8⟩
  | some pI =>
    cases hT : indexOfC cmd 'T' with
    | none =>
      have hres : (processCommand s cmd).1 = s := by simp [processCommand, hP, hT]
      rw [hres]
      exact ⟨h1, h2, h3, h4, h5, h6, h7, h8⟩
    | some tI =>
      have hpan := constrain_mem (atofQ (substringArd cmd (pI + 1) tI)) PAN_MIN PAN_MAX
        (by norm_num [PAN_MIN, PAN_MAX])
      have htilt := constrain_mem (atofQ (substringArd cmd (tI + 1) cmd.length)) TILT_MIN TILT_MAX
        (by norm_num [TILT_MIN, TILT_MAX])
      have hres : (processCommand s cmd).1 =
          { s with
            targetPanAngle := constrain (atofQ (substringArd cmd (pI + 1) tI)) PAN_MIN PAN_MAX,
            targetTiltAngle :=
              constrain (atofQ (substringArd cmd (tI + 1) cmd.length)) TILT_MIN TILT_MAX } := by
        simp [processCommand, hP, hT]
      rw [hres]
      exact ⟨h1, h2, h3, h4, hpan.1, hpan.2, htilt.1, htilt.2⟩

lemma tick_InRange (s : ControllerState) (hs : InRange s) : InRange (tick s) := by
  obtain ⟨h1, h2, h3, h4, h5, h6, h7, h8⟩ := hs
  have hp := updateAxis_mem s.panAngle s.targetPanAngle
  have ht := updateAxis_mem s.tiltAngle s.targetTiltAngle
  have hp0 : (0 : ℚ) ≤ min s.panAngle s.targetPanAngle := le_min h1 h5
  have hp1 : max s.panAngle s.targetPanAngle ≤ 180 := max_le h2 h6
  have ht0 : (0 : ℚ) ≤ min s.tiltAngle s.targetTiltAngle := le_min h3 h7
  have ht1 : max s.tiltAngle s.targetTiltAngle ≤ 180 := max_le h4 h8
  refine ⟨?_, ?_, ?_, ?_, ?_, ?_, ?_, ?_⟩
  · rw [tick_panAngle]; linarith [hp.1]
  · rw [tick_panAngle]; linarith [hp.2]
  · rw [tick_tiltAngle]; linarith [ht.1]
  · rw [tick_tiltAngle]; linarith [ht.2]
  · rw [tick_targetPan]; exact h5
  · rw [tick_targetPan]; exact h6
  · rw [tick_targetTilt]; exact h7
  · rw [tick_targetTilt]; exact h8

lemma initState_InRange : InRange initState := by
  refine ⟨?_, ?_, ?_, ?_, ?_, ?_, ?_, ?_⟩ <;> norm_num [initState]

lemma foldl_InRange (evs : List Event) :
    ∀ s, InRange s → InRange (evs.foldl stepEvent s) := by
  induction evs with
  | nil => exact fun s hs => hs
  | cons e evs ih =>
    intro s hs
    show InRange (evs.foldl stepEvent (stepEvent s e))
    apply ih
    cases e with
    | cmd l => exact processCommand_InRange s hs l
    | tick => exact tick_InRange s hs

/-- Range invariant of the rational-fragment decoder model: every command
whose two value texts parse to finite numbers keeps all four angles in
`[0, 180]`.  The full program does not satisfy the claimed invariant: a `nan`
value text publishes a NaN target, see `nan_target_escapes_limits`. -/
lemma qmodel_states_in_limits (evs : List Event) : InRange (runEvents evs) :=
  foldl_InRange evs initState initState_InRange

/-! Decoder lemmas: marker lookup, the serial receive loop, and line handling. -/

lemma indexOfC_eq_none (s : List Char) (c : Char) : indexOfC s c = none ↔ c ∉ s := by
  induction s with
  | nil => simp [indexOfC]
  | cons x xs ih =>
    by_cases hx : x = c
    · simp [indexOfC, hx]
    · simp [indexOfC, hx, ih, Ne.symm hx]

lemma processCommand_invalid (s : ControllerState) (cmd : List Char)
    (h : 'P' ∉ cmd ∨ 'T' ∉ cmd) :
    processCommand s cmd = (s, ["Error: Invalid command format - " ++ String.mk cmd]) := by
  rcases h with h | h
  · have hP : indexOfC cmd 'P' = none := (indexOfC_eq_none cmd 'P').mpr h
    cases hT : indexOfC cmd 'T' <;> simp [processCommand, hP, hT]
  · have hT : indexOfC cmd 'T' = none := (indexOfC_eq_none cmd 'T').mpr h
    cases hP : indexOfC cmd 'P' <;> simp [processCommand, hP, hT]

lemma readSerial_append (ss : SerialState) (xs ys : List Char) :
    readSerial ss (xs ++ ys) =
      ((readSerial (readSerial ss xs).1 ys).1,
        (readSerial ss xs).2 ++ (readSerial (readSerial ss xs).1 ys).2) := by
  induction xs generalizing ss with
  | nil => simp [readSerial]
  | cons c cs ih => simp [readSerial, ih, List.append_assoc]

lemma readSerial_plain (ss : SerialState) (l : List Char)
    (h : ∀ c ∈ l, ¬(c = '\n' ∨ c = '\r')) :
    readSerial ss l = (⟨ss.ctrl, ss.inputBuffer ++ l⟩, []) := by
  induction l generalizing ss with
  | nil => simp [readSerial]
  | cons c cs ih =>
    have hc : ¬(c = '\n' ∨ c = '\r') := h c (by simp)
    simp only [readSerial]
    rw [show serialStep ss c = (⟨ss.ctrl, ss.inputBuffer ++ [c]⟩, []) by
      simp [serialStep, hc]]
    rw [ih ⟨ss.ctrl, ss.inputBuffer ++ [c]⟩ (fun d hd => h d (by simp [hd]))]
    simp

/-- C5: a non-empty line missing the `P` marker or the `T` marker produces
exactly one error line quoting the offending text, leaves the controller state
(hence both targets) unchanged, discards the pending buffer, and the remaining
input is processed exactly as it would be from a fresh empty buffer. -/
theorem invalid_line_one_error (ctrl : ControllerState) (l rest : List Char)
    (hne : l ≠ [])
    (hmiss : 'P' ∉ l ∨ 'T' ∉ l)
    (hterm : ∀ c ∈ l, ¬(c = '\n' ∨ c = '\r')) :
    readSerial ⟨ctrl, []⟩ (l ++ '\n' :: rest) =
      ((readSerial ⟨ctrl, []⟩ rest).1,
        ("Error: Invalid command format - " ++ String.mk l) ::
          (readSerial ⟨ctrl, []⟩ rest).2) := by
  have hbuf : 0 < l.length := List.length_pos.mpr hne
  rw [readSerial_append, readSerial_plain ⟨ctrl, []⟩ l hterm]
  simp only [List.nil_append]
  have hstep : serialStep ⟨ctrl, l⟩ '\n' =
      (⟨ctrl, []⟩, ["Error: Invalid command format - " ++ String.mk l]) := by
    simp [serialStep, hbuf, processCommand_invalid ctrl l hmiss]
  simp only [readSerial, hstep]
  simp

/-- Witness for C5: the line `XYZ` (no markers) followed by a newline yields
exactly the error line and returns to the initial state with an empty
buffer. -/
theorem invalid_line_one_error_witness :
    ((['X', 'Y', 'Z'] : List Char) ≠ [] ∧ 'P' ∉ (['X', 'Y', 'Z'] : List Char)) ∧
    readSerial ⟨initState, []⟩ (['X', 'Y', 'Z'] ++ '\n' :: []) =
      ((readSerial ⟨initState, []⟩ []).1,
        ("Error: Invalid command format - " ++ String.mk ['X', 'Y', 'Z']) ::
          (readSerial ⟨initState, []⟩ []).2) :=
  ⟨⟨by decide, by decide⟩,
    invalid_line_one_error initState ['X', 'Y', 'Z'] [] (by decide)
      (Or.inl (by decide)) (by decide)⟩

/-- C10: a line terminator arriving while the pending buffer is empty (for
example the `\n` of a `\r\n` pair, or a blank line) is a complete no-op: no
output is emitted and nothing in the state changes. -/
theorem empty_line_ignored (ss : SerialState) (c : Char)
    (hc : c = '\n' ∨ c = '\r') (hb : ss.inputBuffer = []) :
    serialStep ss c = (ss, []) := by
  have hlen : ¬ 0 < ss.inputBuffer.length := by rw [hb]; simp
  rcases hc with rfl | rfl <;> simp [serialStep, hlen]

/-- Witness for C10: a lone newline on an empty buffer in the initial state. -/
theorem empty_line_ignored_witness :
    (⟨initState, []⟩ : SerialState).inputBuffer = [] ∧
    serialStep ⟨initState, []⟩ '\n' = (⟨initState, []⟩, []) :=
  ⟨rfl, empty_line_ignored ⟨initState, []⟩ '\n' (Or.inl rfl) rfl⟩

lemma indexOfC_get (s : List Char) (c : Char) :
    ∀ i, indexOfC s c = some i → s[i]? = some c := by
  induction s with
  | nil => intro i h; simp [indexOfC] at h
  | cons x xs ih =>
    intro i h
    by_cases hx : x = c
    · simp [indexOfC, hx] at h
      subst h
      simp [hx]
    · simp [indexOfC, hx] at h
      obtain ⟨j, hj, rfl⟩ := h
      simpa using ih j hj

lemma atofQ_head_garbage (c : Char) (l : List Char)
    (hs : isSpaceC c = false) (hm : c ≠ '-') (hp : c ≠ '+')
    (hd : c.isDigit = false) (hdot : c ≠ '.') :
    atofQ (c :: l) = 0 := by
  simp [atofQ, List.dropWhile, List.takeWhile, hs, hm, hp, hd, hdot,
    signSplitQ, fracSplit]

/-- C7: when both markers are present but the first `T` precedes the first
`P`, the positional substring extraction still runs (the Arduino substring
swaps the reversed bounds), the extracted pan text starts with the letter `T`
and has no numeric prefix, so it parses to the fallback 0 and the published
pan target is 0 after clamping. -/
theorem t_before_p_pan_zero (ctrl : ControllerState) (cmd : List Char) (pI tI : Nat)
    (hP : indexOfC cmd 'P' = some pI) (hT : indexOfC cmd 'T' = some tI)
    (hlt : tI < pI) :
    (processCommand ctrl cmd).1.targetPanAngle = 0 := by
  have hTget : cmd[tI]? = some 'T' := indexOfC_get cmd 'T' tI hT
  have htlen : tI < cmd.length := by
    by_contra hcon
    rw [List.getElem?_eq_none_iff.mpr (not_lt.mp hcon)] at hTget
    exact Option.noConfusion hTget
  have hsub : substringArd cmd (pI + 1) tI =
      (cmd.take (min (pI + 1) cmd.length)).drop tI := by
    have hmin : min (pI + 1) tI = tI := min_eq_right (by omega)
    have hmax : max (pI + 1) tI = pI + 1 := max_eq_left (by omega)
    simp [substringArd, hmin, hmax, not_le.mpr htlen]
  have hhead : ((cmd.take (min (pI + 1) cmd.length)).drop tI)[0]? = some 'T' := by
    rw [List.getElem?_drop,
      List.getElem?_take_of_lt (show tI + 0 < min (pI + 1) cmd.length by omega)]
    exact hTget
  obtain ⟨tl, htl⟩ : ∃ tl, (cmd.take (min (pI + 1) cmd.length)).drop tI = 'T' :: tl := by
    cases hv : (cmd.take (min (pI + 1) cmd.length)).drop tI with
    | nil => rw [hv] at hhead; simp at hhead
    | cons a tl =>
      rw [hv] at hhead
      simp at hhead
      exact ⟨tl, by rw [hhead]⟩
  have hatof : atofQ (substringArd cmd (pI + 1) tI) = 0 := by
    rw [hsub, htl]
    exact atofQ_head_garbage 'T' tl (by decide) (by decide) (by decide)
      (by decide) (by decide)
  have hres : (processCommand ctrl cmd).1.targetPanAngle =
      constrain (atofQ (substringArd cmd (pI + 1) tI)) PAN_MIN PAN_MAX := by
    simp [processCommand, hP, hT]
  rw [hres, hatof]
  unfold constrain PAN_MIN PAN_MAX
  norm_num

/-- Witness for C7: the line `T45P90` publishes pan target 0. -/
theorem t_before_p_pan_zero_witness :
    (indexOfC ['T', '4', '5', 'P', '9', '0'] 'P' = some 3 ∧
      indexOfC ['T', '4', '5', 'P', '9', '0'] 'T' = some 0 ∧ (0 : Nat) < 3) ∧
    (processCommand initState ['T', '4', '5', 'P', '9', '0']).1.targetPanAngle = 0 :=
  ⟨⟨by decide, by decide, by decide⟩,
    t_before_p_pan_zero initState ['T', '4', '5', 'P', '9', '0'] 3 0
      (by decide) (by decide) (by decide)⟩

/-! Evaluation helpers for the acknowledgment formatter and the permissive
numeric parse. -/

lemma fmt1_eval (q : ℚ) (ip d : ℤ) (h0 : ¬ q < 0)
    (h1 : ⌊q + 1 / 20⌋ = ip) (h2 : ⌊(q + 1 / 20 - (ip : ℚ)) * 10⌋ = d) :
    fmt1 q = natToString ip.toNat ++ "." ++ natToString d.toNat := by
  simp only [fmt1, fmt1core]
  rw [if_neg h0, h1, h2]

lemma fmt1_zero : fmt1 0 = "0.0" := by
  rw [fmt1_eval 0 0 0 (by norm_num) (by norm_num) (by push_cast; norm_num)]
  decide

lemma fmt1_one_eighty : fmt1 180 = "180.0" := by
  rw [fmt1_eval 180 180 0 (by norm_num) (by norm_num) (by push_cast; norm_num)]
  decide

lemma takeWhile_digit_nil (l : List Char) (h : ∀ c ∈ l, c.isDigit = false) :
    l.takeWhile Char.isDigit = [] := by
  cases l with
  | nil => rfl
  | cons c r => simp [List.takeWhile, h c (by simp)]

lemma signSplitQ_snd_mem (s : List Char) (c : Char) (hc : c ∈ (signSplitQ s).2) :
    c ∈ s := by
  cases s with
  | nil => simp [signSplitQ] at hc
  | cons x r =>
    by_cases hx : x = '-'
    · simp [signSplitQ, hx] at hc
      simp [hc]
    · by_cases hx2 : x = '+'
      · simp [signSplitQ, hx, hx2] at hc
        simp [hc]
      · simpa [signSplitQ, hx, hx2] using hc

lemma fracSplit_fst_nil (s : List Char) (h : ∀ c ∈ s, c.isDigit = false) :
    (fracSplit s).1 = [] := by
  cases s with
  | nil => rfl
  | cons c r =>
    by_cases hc : c = '.'
    · subst hc
      simp only [fracSplit, if_pos rfl]
      exact takeWhile_digit_nil r (fun d hd => h d (by simp [hd]))
    · simp [fracSplit, hc]

lemma isNanPrefix_false (s : List Char) (h : ∀ c ∈ s, c ≠ 'n' ∧ c ≠ 'N') :
    isNanPrefix s = false := by
  cases s with
  | nil => rfl
  | cons c1 r1 =>
    cases r1 with
    | nil => rfl
    | cons c2 r2 =>
      cases r2 with
      | nil => rfl
      | cons c3 r3 =>
        have h1 := h c1 (by simp)
        simp [isNanPrefix, h1.1, h1.2]

lemma isInfPrefix_false (s : List Char) (h : ∀ c ∈ s, c ≠ 'i' ∧ c ≠ 'I') :
    isInfPrefix s = false := by
  cases s with
  | nil => rfl
  | cons c1 r1 =>
    cases r1 with
    | nil => rfl
    | cons c2 r2 =>
      cases r2 with
      | nil => rfl
      | cons c3 r3 =>
        have h1 := h c1 (by simp)
        simp [isInfPrefix, h1.1, h1.2]

lemma atofF_no_prefix (l : List Char)
    (hd : ∀ c ∈ l, c.isDigit = false)
    (hn : ∀ c ∈ l, c ≠ 'n' ∧ c ≠ 'N')
    (hi : ∀ c ∈ l, c ≠ 'i' ∧ c ≠ 'I') :
    atofF l = FloatVal.num 0 := by
  have hmem : ∀ c ∈ (signSplitQ (l.dropWhile isSpaceC)).2, c ∈ l :=
    fun c hc => (List.dropWhile_sublist isSpaceC).subset (signSplitQ_snd_mem _ c hc)
  have h2d : ∀ c ∈ (signSplitQ (l.dropWhile isSpaceC)).2, c.isDigit = false :=
    fun c hc => hd c (hmem c hc)
  have h3d : ∀ c ∈ ((signSplitQ (l.dropWhile isSpaceC)).2).dropWhile Char.isDigit,
      c.isDigit = false :=
    fun c hc => h2d c ((List.dropWhile_sublist Char.isDigit).subset hc)
  have hnanp : isNanPrefix (signSplitQ (l.dropWhile isSpaceC)).2 = false :=
    isNanPrefix_false _ (fun c hc => hn c (hmem c hc))
  have hinfp : isInfPrefix (signSplitQ (l.dropWhile isSpaceC)).2 = false :=
    isInfPrefix_false _ (fun c hc => hi c (hmem c hc))
  simp only [atofF, hnanp, hinfp, Bool.false_eq_true, if_false]
  rw [takeWhile_digit_nil _ h2d, fracSplit_fst_nil _ h3d]
  simp

lemma constrainF_num_range (x : FloatVal) (lo hi q : ℚ) (hlohi : lo ≤ hi)
    (h : constrainF x lo hi = FloatVal.num q) : lo ≤ q ∧ q ≤ hi := by
  unfold constrainF at h
  split_ifs at h with h1 h2
  · simp only [FloatVal.num.injEq] at h
    subst h
    exact ⟨le_refl _, hlohi⟩
  · simp only [FloatVal.num.injEq] at h
    subst h
    exact ⟨hlohi, le_refl _⟩
  · subst h
    simp only [fltLtB, decide_eq_true_eq] at h1 h2
    exact ⟨not_lt.mp h1, not_lt.mp h2⟩

lemma fmt1_ninety : fmt1 90 = "90.0" := by
  rw [fmt1_eval 90 90 0 (by norm_num) (by norm_num) (by push_cast; norm_num)]
  decide

/-- C3 (refuted, code bug): the command `PnanT90` publishes a NaN pan target:
avr-libc `strtod` parses the value text `nan` to NaN and the `constrain`
macro's two comparisons are both false on NaN, so it passes through
unclamped, violating the claimed `[0, 180]` invariant; the acknowledgment
even reports it as `OK: P=nan, T=90.0`. -/
theorem nan_target_escapes_limits :
    (processCommandF initFullState ['P', 'n', 'a', 'n', 'T', '9', '0']).1.targetPanAngleF =
      FloatVal.nan ∧
    ¬ inRangeF
      (processCommandF initFullState ['P', 'n', 'a', 'n', 'T', '9', '0']).1.targetPanAngleF ∧
    (processCommandF initFullState ['P', 'n', 'a', 'n', 'T', '9', '0']).2 =
      ["OK: P=nan, T=90.0"] := by
  have hP : indexOfC ['P', 'n', 'a', 'n', 'T', '9', '0'] 'P' = some 0 := by decide
  have hT : indexOfC ['P', 'n', 'a', 'n', 'T', '9', '0'] 'T' = some 4 := by decide
  have hsubp : substringArd ['P', 'n', 'a', 'n', 'T', '9', '0'] 1 4 = ['n', 'a', 'n'] := by
    decide
  have hsubt : substringArd ['P', 'n', 'a', 'n', 'T', '9', '0'] 5 7 = ['9', '0'] := by
    decide
  have hatofp : atofF ['n', 'a', 'n'] = FloatVal.nan := by decide
  have hatoft : atofF ['9', '0'] = FloatVal.num 90 := by
    simp +decide [atofF, isNanPrefix, isInfPrefix, signSplitQ, fracSplit, expPart,
      digitsToNat, isSpaceC]
  have hconp : constrainF FloatVal.nan PAN_MIN PAN_MAX = FloatVal.nan := by decide
  have hcont : constrainF (FloatVal.num 90) TILT_MIN TILT_MAX = FloatVal.num 90 := by decide
  have hfmtn : fmt1F FloatVal.nan = "nan" := rfl
  have hfmtt : fmt1F (FloatVal.num 90) = "90.0" := by norm_num [fmt1F, fmt1_ninety]
  have hstr : "OK: P=" ++ ("nan" : String) ++ ", T=" ++ "90.0" = "OK: P=nan, T=90.0" := by
    decide
  have hres : processCommandF initFullState ['P', 'n', 'a', 'n', 'T', '9', '0'] =
      (⟨FloatVal.num 90, FloatVal.num 90, FloatVal.nan, FloatVal.num 90⟩,
        ["OK: P=nan, T=90.0"]) := by
    simp [processCommandF, hP, hT, hsubp, hsubt, hatofp, hatoft, hconp, hcont,
      hfmtn, hfmtt, hstr, initFullState]
  rw [hres]
  refine ⟨rfl, ?_, rfl⟩
  rintro ⟨q, hq, _⟩
  exact FloatVal.noConfusion hq

/-- C8: the line `PT` (both value substrings empty) is acknowledged with
`OK: P=0.0, T=0.0` and publishes targets pan 0 and tilt 0; in general a value
text with no valid numeric prefix — here any text containing no digit and
none of the letters that can open `strtod`'s `nan`/`inf` forms — parses to 0
before clamping. -/
theorem pt_line_ack_zero (ctrl : FullControllerState) :
    processCommandF ctrl ['P', 'T'] =
      ({ ctrl with targetPanAngleF := FloatVal.num 0, targetTiltAngleF := FloatVal.num 0 },
        ["OK: P=0.0, T=0.0"]) ∧
    ∀ l : List Char, (∀ c ∈ l, c.isDigit = false) →
      (∀ c ∈ l, c ≠ 'n' ∧ c ≠ 'N') → (∀ c ∈ l, c ≠ 'i' ∧ c ≠ 'I') →
      atofF l = FloatVal.num 0 := by
  constructor
  · have hP : indexOfC ['P', 'T'] 'P' = some 0 := by decide
    have hT : indexOfC ['P', 'T'] 'T' = some 1 := by decide
    have hsubp : substringArd ['P', 'T'] 1 1 = [] := by decide
    have hsubt : substringArd ['P', 'T'] 2 2 = [] := by decide
    have hatof : atofF ([] : List Char) = FloatVal.num 0 := rfl
    have hcon : constrainF (FloatVal.num 0) PAN_MIN PAN_MAX = FloatVal.num 0 := by decide
    have hcon2 : constrainF (FloatVal.num 0) TILT_MIN TILT_MAX = FloatVal.num 0 := by decide
    have hfmt : fmt1F (FloatVal.num 0) = "0.0" := by norm_num [fmt1F, fmt1_zero]
    have hstr : "OK: P=" ++ ("0.0" : String) ++ ", T=" ++ "0.0" = "OK: P=0.0, T=0.0" := by
      decide
    simp [processCommandF, hP, hT, hsubp, hsubt, hatof, hcon, hcon2, hfmt, hstr]
  · exact atofF_no_prefix

/-- Witness for C8 at the initial state, with the prefix-free value text `T`. -/
theorem pt_line_ack_zero_witness :
    processCommandF initFullState ['P', 'T'] =
      ({ initFullState with
          targetPanAngleF := FloatVal.num 0, targetTiltAngleF := FloatVal.num 0 },
        ["OK: P=0.0, T=0.0"]) ∧
    (∀ c ∈ (['T'] : List Char), c.isDigit = false) ∧ atofF ['T'] = FloatVal.num 0 :=
  ⟨(pt_line_ack_zero initFullState).1, by decide,
    (pt_line_ack_zero initFullState).2 ['T'] (by decide) (by decide) (by decide)⟩

/-- C9 counterexample: the valid command `P200TnaN` is acknowledged
successfully, yet the ack reads `OK: P=180.0, T=nan` — the tilt value it
reports is the unclamped NaN, not a clamped value formatted with one decimal
digit, and the published tilt target is no in-range number. -/
theorem nan_ack_counterexample :
    indexOfC ['P', '2', '0', '0', 'T', 'n', 'a', 'N'] 'P' = some 0 ∧
    indexOfC ['P', '2', '0', '0', 'T', 'n', 'a', 'N'] 'T' = some 4 ∧
    (processCommandF initFullState ['P', '2', '0', '0', 'T', 'n', 'a', 'N']).2 =
      ["OK: P=180.0, T=nan"] ∧
    (processCommandF initFullState ['P', '2', '0', '0', 'T', 'n', 'a', 'N']).1.targetTiltAngleF =
      FloatVal.nan ∧
    ¬ inRangeF
      (processCommandF initFullState ['P', '2', '0', '0', 'T', 'n', 'a', 'N']).1.targetTiltAngleF := by
  have hP : indexOfC ['P', '2', '0', '0', 'T', 'n', 'a', 'N'] 'P' = some 0 := by decide
  have hT : indexOfC ['P', '2', '0', '0', 'T', 'n', 'a', 'N'] 'T' = some 4 := by decide
  have hsubp : substringArd ['P', '2', '0', '0', 'T', 'n', 'a', 'N'] 1 4 =
      ['2', '0', '0'] := by decide
  have hsubt : substringArd ['P', '2', '0', '0', 'T', 'n', 'a', 'N'] 5 8 =
      ['n', 'a', 'N'] := by decide
  have hatofp : atofF ['2', '0', '0'] = FloatVal.num 200 := by
    simp +decide [atofF, isNanPrefix, isInfPrefix, signSplitQ, fracSplit, expPart,
      digitsToNat, isSpaceC]
  have hatoft : atofF ['n', 'a', 'N'] = FloatVal.nan := by decide
  have hconp : constrainF (FloatVal.num 200) PAN_MIN PAN_MAX = FloatVal.num 180 := by decide
  have hcont : constrainF FloatVal.nan TILT_MIN TILT_MAX = FloatVal.nan := by decide
  have hfmtp : fmt1F (FloatVal.num 180) = "180.0" := by norm_num [fmt1F, fmt1_one_eighty]
  have hfmtn : fmt1F FloatVal.nan = "nan" := rfl
  have hstr : "OK: P=" ++ ("180.0" : String) ++ ", T=" ++ "nan" = "OK: P=180.0, T=nan" := by
    decide
  have hres : processCommandF initFullState ['P', '2', '0', '0', 'T', 'n', 'a', 'N'] =
      (⟨FloatVal.num 90, FloatVal.num 90, FloatVal.num 180, FloatVal.nan⟩,
        ["OK: P=180.0, T=nan"]) := by
    simp [processCommandF, hP, hT, hsubp, hsubt, hatofp, hatoft, hconp, hcont,
      hfmtp, hfmtn, hstr, initFullState]
  rw [hres]
  refine ⟨hP, hT, rfl, rfl, ?_⟩
  rintro ⟨q, hq, _⟩
  exact FloatVal.noConfusion hq

/-- C9 (amended): the line `P200T-10` is clamped to the limits and
acknowledged with `OK: P=180.0, T=0.0`; in general every successful
acknowledgment quotes exactly the two published target values through the
one-decimal actuator formatter (which renders the unclamped specials as
`nan`/`inf`), clamping never produces an error line, and whenever a published
target is a number it is clamped into `[0, 180]`. -/
theorem clamped_ack_full (ctrl : FullControllerState) :
    processCommandF ctrl ['P', '2', '0', '0', 'T', '-', '1', '0'] =
      ({ ctrl with
          targetPanAngleF := FloatVal.num 180, targetTiltAngleF := FloatVal.num 0 },
        ["OK: P=180.0, T=0.0"]) ∧
    ∀ cmd pI tI, indexOfC cmd 'P' = some pI → indexOfC cmd 'T' = some tI →
      (processCommandF ctrl cmd).2 =
        ["OK: P=" ++ fmt1F ((processCommandF ctrl cmd).1.targetPanAngleF) ++
          ", T=" ++ fmt1F ((processCommandF ctrl cmd).1.targetTiltAngleF)] ∧
      (∀ q, (processCommandF ctrl cmd).1.targetPanAngleF = FloatVal.num q →
        0 ≤ q ∧ q ≤ 180) ∧
      (∀ q, (processCommandF ctrl cmd).1.targetTiltAngleF = FloatVal.num q →
        0 ≤ q ∧ q ≤ 180) := by
  constructor
  · have hP : indexOfC ['P', '2', '0', '0', 'T', '-', '1', '0'] 'P' = some 0 := by decide
    have hT : indexOfC ['P', '2', '0', '0', 'T', '-', '1', '0'] 'T' = some 4 := by decide
    have hsubp : substringArd ['P', '2', '0', '0', 'T', '-', '1', '0'] 1 4 =
        ['2', '0', '0'] := by decide
    have hsubt : substringArd ['P', '2', '0', '0', 'T', '-', '1', '0'] 5 8 =
        ['-', '1', '0'] := by decide
    have hatofp : atofF ['2', '0', '0'] = FloatVal.num 200 := by
      simp +decide [atofF, isNanPrefix, isInfPrefix, signSplitQ, fracSplit, expPart,
        digitsToNat, isSpaceC]
    have hatoft : atofF ['-', '1', '0'] = FloatVal.num (-10) := by
      simp +decide [atofF, isNanPrefix, isInfPrefix, signSplitQ, fracSplit, expPart,
        digitsToNat, isSpaceC]
    have hconp : constrainF (FloatVal.num 200) PAN_MIN PAN_MAX = FloatVal.num 180 := by
      decide
    have hcont : constrainF (FloatVal.num (-10)) TILT_MIN TILT_MAX = FloatVal.num 0 := by
      decide
    have hfmtp : fmt1F (FloatVal.num 180) = "180.0" := by norm_num [fmt1F, fmt1_one_eighty]
    have hfmtt : fmt1F (FloatVal.num 0) = "0.0" := by norm_num [fmt1F, fmt1_zero]
    have hstr : "OK: P=" ++ ("180.0" : String) ++ ", T=" ++ "0.0" =
        "OK: P=180.0, T=0.0" := by decide
    simp [processCommandF, hP, hT, hsubp, hsubt, hatofp, hatoft, hconp, hcont,
      hfmtp, hfmtt, hstr]
  · intro cmd pI tI hP hT
    have h1 : (processCommandF ctrl cmd).1.targetPanAngleF =
        constrainF (atofF (substringArd cmd (pI + 1) tI)) PAN_MIN PAN_MAX := by
      simp [processCommandF, hP, hT]
    have h2 : (processCommandF ctrl cmd).1.targetTiltAngleF =
        constrainF (atofF (substringArd cmd (tI + 1) cmd.length)) TILT_MIN TILT_MAX := by
      simp [processCommandF, hP, hT]
    refine ⟨?_, ?_, ?_⟩
    · rw [h1, h2]
      simp [processCommandF, hP, hT]
    · intro q hq
      rw [h1] at hq
      exact constrainF_num_range _ _ _ q (by norm_num [PAN_MIN, PAN_MAX]) hq
    · intro q hq
      rw [h2] at hq
      exact constrainF_num_range _ _ _ q (by norm_num [TILT_MIN, TILT_MAX]) hq

/-- Witness for C9's amended general part at the line `XP5T7` (markers at
positions 1 and 3, published pan target the number 5), together with the
concrete clamped-acknowledgment part. -/
theorem clamped_ack_full_witness :
    (indexOfC ['X', 'P', '5', 'T', '7'] 'P' = some 1 ∧
      indexOfC ['X', 'P', '5', 'T', '7'] 'T' = some 3) ∧
    (processCommandF initFullState ['X', 'P', '5', 'T', '7']).2 =
      ["OK: P=" ++
          fmt1F ((processCommandF initFullState ['X', 'P', '5', 'T', '7']).1.targetPanAngleF) ++
        ", T=" ++
          fmt1F ((processCommandF initFullState ['X', 'P', '5', 'T', '7']).1.targetTiltAngleF)] ∧
    ((0 : ℚ) ≤ 5 ∧ (5 : ℚ) ≤ 180) := by
  have h := (clamped_ack_full initFullState).2 ['X', 'P', '5', 'T', '7'] 1 3
    (by decide) (by decide)
  refine ⟨⟨by decide, by decide⟩, h.1, ?_⟩
  apply h.2.1 5
  have hP : indexOfC ['X', 'P', '5', 'T', '7'] 'P' = some 1 := by decide
  have hT : indexOfC ['X', 'P', '5', 'T', '7'] 'T' = some 3 := by decide
  have hsubp : substringArd ['X', 'P', '5', 'T', '7'] 2 3 = ['5'] := by decide
  have hatof : atofF ['5'] = FloatVal.num 5 := by
    simp +decide [atofF, isNanPrefix, isInfPrefix, signSplitQ, fracSplit, expPart,
      digitsToNat, isSpaceC]
  have hcon : constrainF (FloatVal.num 5) PAN_MIN PAN_MAX = FloatVal.num 5 := by decide
  simp [processCommandF, hP, hT, hsubp, hatof, hcon]

end PanTilt
